import Mathlib

/-!
Verification of the image-generation pipeline of the `mcp-openai` server.

The development shallowly embeds the Python sources:
  * `src/mcp_openai/image_utils.py` (binary-search JPEG quality codec),
  * `src/mcp_server_openai/image_utils.py` (older stepwise codec),
  * `src/mcp_server_openai/llm.py` (backoff calculator and retry loop),
  * `src/mcp_server_openai/notifications.py` (safe notification manager),
  * `src/mcp_server_openai/tools.py` (the `create-image` request handler).

External collaborators (the PIL image library, the OpenAI client, the random
source, the MCP session) are modelled as injected parameters: e.g. the PIL
encoders are fields of a `PILOps` record, and `random.uniform` is an injected
function.  Everything the repository itself computes is translated directly.
-/

namespace ImageUtils

/-- PIL image modes that the codec inspects (`img.mode`). -/
inductive Mode
| RGB
| RGBA
| LA
| P
| L
deriving DecidableEq, Repr

/-- One pixel; `r,g,b` colour channels and `a` alpha, each an 8-bit value.
For `LA` images PIL stores a luminance channel; we represent it with
`r = g = b`. -/
structure Pixel where
  r : Nat
  g : Nat
  b : Nat
  a : Nat
deriving DecidableEq, Repr

/-- A decoded PIL image: mode, size, row-major pixel data, and whether the
image's `info` dictionary contains a `transparency` entry (palette images). -/
structure Img where
  mode : Mode
  width : Nat
  height : Nat
  pixels : List Pixel
  infoTransparency : Bool
deriving DecidableEq, Repr

/-- The two save formats used by `binary_search_quality`. -/
inductive Format
| PNG
| JPEG
deriving DecidableEq, Repr

/-- The PIL operations the codec calls, injected as abstract functions:
`encodePNG img` is `img.save(bio, format='PNG', optimize=True)`,
`encodePNGPlain img` is `img.save(bio, format='PNG')` (no optimize),
`encodeJPEG img q` is `img.save(bio, format='JPEG', quality=q, optimize=True)`,
`resample img w h` is the pixel data of `img.resize((w, h), Image.LANCZOS)`. -/
structure PILOps where
  encodePNG : Img → List Nat
  encodePNGPlain : Img → List Nat
  encodeJPEG : Img → Int → List Nat
  resample : Img → Nat → Nat → List Pixel

/-- Dispatch of `img.save` on the `format` argument inside
`binary_search_quality`: for `'PNG'` the quality keyword is not passed. -/
def saveWith (ops : PILOps) (img : Img) (format : Format) (quality : Int) : List Nat :=
  match format with
  | Format.PNG => ops.encodePNG img
  | Format.JPEG => ops.encodeJPEG img quality

/-- The `while low <= high` loop of `binary_search_quality`
(`image_utils.py` lines 57-74).  State: the bounds, the best encoding seen so
far and its quality.  Quality arithmetic is over `Int`, as in Python;
`(low + high).fdiv 2` is Python's floor division `(low + high) // 2`. -/
def bsqLoop (ops : PILOps) (img : Img) (format : Format) (target_size : Nat)
    (low high : Int) (best_data : Option (List Nat)) (best_quality : Int) :
    Option (List Nat) × Int :=
  if _h : low ≤ high then
    let current_quality := (low + high).fdiv 2
    let data := saveWith ops img format current_quality
    if data.length ≤ target_size then
      bsqLoop ops img format target_size (current_quality + 1) high (some data) current_quality
    else
      bsqLoop ops img format target_size low (current_quality - 1) best_data best_quality
  else
    (best_data, best_quality)
termination_by (high + 1 - low).toNat
decreasing_by
  all_goals rw [Int.fdiv_eq_ediv _ (by norm_num)] at *
  · omega
  · omega

/-- `binary_search_quality(img, format, target_size, min_quality)`
(`image_utils.py` lines 39-84).  The source defaults `min_quality` to 30;
callers pass it explicitly here.  `best_quality` starts at `high = 95`; if no
probe ever fits, the fallback encodes once at `min_quality` while the returned
quality value stays at its initial 95, exactly as in the source. -/
def binary_search_quality (ops : PILOps) (img : Img) (format : Format)
    (target_size : Nat) (min_quality : Int) : List Nat × Int :=
  match bsqLoop ops img format target_size min_quality 95 none 95 with
  | (some best_data, best_quality) => (best_data, best_quality)
  | (none, best_quality) => (saveWith ops img format min_quality, best_quality)

/-- The encoding of `img` at quality `q` fits the byte budget
`target_size` — the measurement `size <= target_size` made by the loop. -/
def fitsAt (ops : PILOps) (img : Img) (format : Format) (target_size : Nat)
    (q : Int) : Prop :=
  (saveWith ops img format q).length ≤ target_size

/-- `get_optimal_dimensions(width, height, target_width)`
(`image_utils.py` lines 86-102).  The source computes
`int(height * (target_width / width))` in floating point; we use the exact
value `⌊height * target_width / width⌋`, which is natural division. -/
def get_optimal_dimensions (width height : Nat) (target_width : Nat) : Nat × Nat :=
  if width ≤ target_width then (width, height)
  else (target_width, height * target_width / width)

/-- The transparency test of `compress_image_data` (line 130):
`img.mode in ('RGBA', 'LA') or (img.mode == 'P' and 'transparency' in img.info)`. -/
def isTransparent (img : Img) : Bool :=
  decide (img.mode = Mode.RGBA) || decide (img.mode = Mode.LA) ||
    (decide (img.mode = Mode.P) && img.infoTransparency)

/-- The opaque white pixel. -/
def whitePixel : Pixel := ⟨255, 255, 255, 255⟩

/-- `Image.new('RGB', (w, h), 'white')`. -/
def newRGBWhite (w h : Nat) : Img :=
  ⟨Mode.RGB, w, h, List.replicate (w * h) whitePixel, false⟩

/-- One pixel of `background.paste(img, mask=alpha)`: PIL blends the pasted
pixel with the background using the 8-bit mask value `m`; the result lives in
an `RGB` image, so its alpha is opaque. -/
def compositePixel (bg fg : Pixel) (m : Nat) : Pixel :=
  ⟨(fg.r * m + bg.r * (255 - m)) / 255,
   (fg.g * m + bg.g * (255 - m)) / 255,
   (fg.b * m + bg.b * (255 - m)) / 255,
   255⟩

/-- `background.paste(img, mask=img.split()[3])`: alpha-composite `fg` onto
`bg` using the alpha channel of `fg` as the mask (the RGBA branch of
`compress_image_data`, line 143). -/
def pasteWithAlphaMask (bg fg : Img) : Img :=
  { bg with pixels := List.zipWith (fun b f => compositePixel b f f.a) bg.pixels fg.pixels }

/-- `background.paste(img)` with no mask (the non-RGBA branch, line 145):
the pasted image's colour channels overwrite the background; the alpha
channel of `fg` is ignored and the result is opaque `RGB`. -/
def pasteNoMask (bg fg : Img) : Img :=
  { bg with pixels := fg.pixels.map (fun f => ⟨f.r, f.g, f.b, 255⟩) }

/-- The white-background flattening block of `compress_image_data`
(lines 141-145): build a white `RGB` background of the image's size, then
paste with the alpha mask for `RGBA` images and without a mask otherwise. -/
def flattenOnWhite (img : Img) : Img :=
  let background := newRGBWhite img.width img.height
  if img.mode = Mode.RGBA then pasteWithAlphaMask background img
  else pasteNoMask background img

/-- What the specification describes: flattening onto an opaque white
background by alpha-compositing with the image's own alpha channel as the
mask, for every transparent image. -/
def alphaCompositedOnWhite (img : Img) : Img :=
  pasteWithAlphaMask (newRGBWhite img.width img.height) img

/-- `img.resize((w, h), Image.LANCZOS)`: same mode and info, new size,
resampled pixels. -/
def resize (ops : PILOps) (img : Img) (w h : Nat) : Img :=
  { img with width := w, height := h, pixels := ops.resample img w h }

/-- The resizing step of `compress_image_data` (lines 124-127): if either
dimension exceeds 1024, resize to `get_optimal_dimensions(width, height)`. -/
def workingImage (ops : PILOps) (decoded : Img) : Img :=
  if decoded.width > 1024 || decoded.height > 1024 then
    let wh := get_optimal_dimensions decoded.width decoded.height 1024
    resize ops decoded wh.1 wh.2
  else decoded

/-- `compress_image_data(image_data, max_size)` (`image_utils.py` lines
104-162) of `src/mcp_openai/image_utils.py`.  `decoded` is the image that
`Image.open` yields for `image_data`; the source defaults `max_size` to
`512 * 1024`.  Returns the encoded bytes and the MIME type. -/
def compress_image_data (ops : PILOps) (decoded : Img) (image_data : List Nat)
    (max_size : Nat) : List Nat × String :=
  if image_data.length ≤ max_size then
    (image_data, "image/png")
  else
    let img := workingImage ops decoded
    if isTransparent img then
      let final_data := ops.encodePNG img
      if final_data.length > max_size then
        let background := flattenOnWhite img
        ((binary_search_quality ops background Format.JPEG max_size 30).1, "image/jpeg")
      else
        (final_data, "image/png")
    else
      ((binary_search_quality ops img Format.JPEG max_size 30).1, "image/jpeg")

end ImageUtils

namespace LLM

/-- `calculate_backoff_delay(retry, base_delay, jitter)` (`llm.py` lines
17-35).  The call `random.uniform(-jitter_amount, jitter_amount)` is modelled
by the injected function `uniform`, applied to the same two bounds.  Source
defaults: `base_delay = 1.0`, `jitter = 0.1`. -/
def calculate_backoff_delay (uniform : ℚ → ℚ → ℚ) (retry : Nat)
    (base_delay : ℚ) (jitter : ℚ) : ℚ :=
  let delay := base_delay * 2 ^ retry
  let jitter_amount := delay * jitter
  let actual_delay := delay + uniform (-jitter_amount) jitter_amount
  max base_delay actual_delay

/-- Outcome of one `client.images.generate` attempt, as observed by the
`try`/`except` blocks of `LLMConnector.create_image`: a list of decoded
image byte strings, a timeout (`APITimeoutError` or `asyncio.TimeoutError`,
carrying its message), or any other exception. -/
inductive AttemptOutcome
| ok (images : List (List Nat))
| timeout (msg : String)
| apiError (msg : String)

/-- Observable events of `create_image`: an API attempt (labelled with the
value of `current_retry` when it starts) and a backoff sleep. -/
inductive Ev
| attempt (i : Nat)
| sleep (d : ℚ)
deriving DecidableEq

/-- The errors `create_image` can raise: `RuntimeError` when the connector is
closed, a re-raised non-timeout provider error, or the final `TimeoutError`
whose message carries `max_retries`, the recomputed total backoff time and
`str(last_error)`. -/
inductive CreateError
| runtimeClosed
| providerError (msg : String)
| timeoutError (max_retries : Nat) (total_time : ℚ) (last_error : Option String)
deriving DecidableEq

/-- `total_time = sum(calculate_backoff_delay(i) for i in range(current_retry))`
(`llm.py` line 173), with the defaults `base_delay = 1`, `jitter = 1/10`. -/
def totalBackoffTime (uniform : ℚ → ℚ → ℚ) (current_retry : Nat) : ℚ :=
  ((List.range current_retry).map
    (fun i => calculate_backoff_delay uniform i 1 (1 / 10))).sum

/-- The `TimeoutError` raised after the retry loop (`llm.py` lines 173-179). -/
def mkTimeoutError (uniform : ℚ → ℚ → ℚ) (max_retries current_retry : Nat)
    (last_error : Option String) : CreateError :=
  CreateError.timeoutError max_retries (totalBackoffTime uniform current_retry) last_error

/-- The `while current_retry <= max_retries` loop of
`LLMConnector.create_image` (`llm.py` lines 122-179).  `provider i` is the
outcome of the attempt made while `current_retry = i`.  On a timeout the
counter is incremented; if attempts remain the loop sleeps
`calculate_backoff_delay(current_retry)` and continues, otherwise it breaks
to the post-loop `raise TimeoutError`.  A non-timeout exception is re-raised
immediately.  The returned event list records attempts and sleeps in order. -/
def createImageLoop (provider : Nat → AttemptOutcome) (uniform : ℚ → ℚ → ℚ)
    (max_retries current_retry : Nat) (last_error : Option String)
    (events : List Ev) : Except CreateError (List (List Nat)) × List Ev :=
  if current_retry ≤ max_retries then
    let events' := events ++ [Ev.attempt current_retry]
    match provider current_retry with
    | AttemptOutcome.ok images => (Except.ok images, events')
    | AttemptOutcome.timeout msg =>
      if current_retry + 1 ≤ max_retries then
        let delay := calculate_backoff_delay uniform (current_retry + 1) 1 (1 / 10)
        createImageLoop provider uniform max_retries (current_retry + 1) (some msg)
          (events' ++ [Ev.sleep delay])
      else
        (Except.error (mkTimeoutError uniform max_retries (current_retry + 1) (some msg)), events')
    | AttemptOutcome.apiError msg => (Except.error (CreateError.providerError msg), events')
  else
    (Except.error (mkTimeoutError uniform max_retries current_retry last_error), events)
termination_by max_retries + 1 - current_retry

/-- `LLMConnector.create_image` (`llm.py` lines 87-179): raises
`RuntimeError` if the connector is closed, otherwise runs the retry loop
starting from `current_retry = 0`, `last_error = None`. -/
def create_image (closed : Bool) (provider : Nat → AttemptOutcome)
    (uniform : ℚ → ℚ → ℚ) (max_retries : Nat) :
    Except CreateError (List (List Nat)) × List Ev :=
  if closed then (Except.error CreateError.runtimeClosed, [])
  else createImageLoop provider uniform max_retries 0 none []

/-- Number of attempt events in a trace. -/
def countAttempts (events : List Ev) : Nat :=
  (events.filter (fun e => match e with | Ev.attempt _ => true | _ => false)).length

/-- The expected trace of a run in which every attempt times out, starting at
attempt `c` with `max_retries + 1 - c` attempts remaining: each attempt except
the last is followed by one backoff sleep. -/
def timeoutTrace (uniform : ℚ → ℚ → ℚ) (max_retries c : Nat) : List Ev :=
  ((List.range' c (max_retries + 1 - c)).map (fun i =>
    if i < max_retries then
      [Ev.attempt i, Ev.sleep (calculate_backoff_delay uniform (i + 1) 1 (1 / 10))]
    else
      [Ev.attempt i])).flatten

end LLM

namespace ImageUtilsV2

open ImageUtils

/-- The `while quality > 30` loop of the older
`src/mcp_server_openai/image_utils.py` `compress_image_data` (lines 44-60):
encode at the current quality (PNG, ignoring quality, for transparent
images), stop as soon as the result fits, otherwise drop the quality by 10.
`last` is the most recent `(final_data, mime_type)` pair, returned when the
quality floor is passed. -/
def v2Loop (ops : PILOps) (img : Img) (max_size : Nat) (quality : Nat)
    (last : List Nat × String) : List Nat × String :=
  if 30 < quality then
    let current :=
      if isTransparent img then (ops.encodePNG img, "image/png")
      else (ops.encodeJPEG img (quality : Int), "image/jpeg")
    if current.1.length ≤ max_size then current
    else v2Loop ops img max_size (quality - 10) current
  else last

/-- The resize step of the older codec (lines 37-42): one ratio
`min(1024 / width, 1024 / height)` caps both dimensions; applied only when
the ratio is `< 1`, i.e. when the larger dimension exceeds 1024.  Both new
dimensions are `int(dim * ratio) = ⌊dim * 1024 / max(width, height)⌋`. -/
def v2WorkingImage (ops : PILOps) (img : Img) : Img :=
  let m := max img.width img.height
  if 1024 < m then
    resize ops img (img.width * 1024 / m) (img.height * 1024 / m)
  else img

/-- `compress_image_data(image_data, max_size)` of
`src/mcp_server_openai/image_utils.py` (lines 12-66).  When the raw bytes
already fit the budget it re-encodes as PNG without `optimize`
(`img.save(bio, format='PNG')`, lines 29-34) and returns that, whatever its
size.  Otherwise it resizes and runs the stepwise quality loop from 95.
The loop seed `([], "")` models the unbound `final_data` variable, which is
unreachable because the loop always runs at least once (95 > 30). -/
def compress_image_data_v2 (ops : PILOps) (decoded : Img) (image_data : List Nat)
    (max_size : Nat) : List Nat × String :=
  if image_data.length ≤ max_size then
    (ops.encodePNGPlain decoded, "image/png")
  else
    v2Loop ops (v2WorkingImage ops decoded) max_size 95 ([], "")

end ImageUtilsV2

namespace Notifications

/-- A Python value as inspected by the `isinstance` validation checks of
`NotificationManager.send_notification`. -/
inductive PyVal
| str (s : String)
| int (i : Int)
| float (q : ℚ)
| noneV
| other (tag : String)
deriving DecidableEq

/-- `isinstance(v, (str, int))`. -/
def isStrOrInt : PyVal → Bool
  | PyVal.str _ => true
  | PyVal.int _ => true
  | _ => false

/-- `isinstance(v, (int, float))`. -/
def isNumeric : PyVal → Bool
  | PyVal.int _ => true
  | PyVal.float _ => true
  | _ => false

/-- The fields of `ProgressNotificationParams` that the validation block
reads: `progressToken`, `progress` and the optional `total`. -/
structure ProgressParams where
  progressToken : PyVal
  progress : PyVal
  total : Option PyVal
deriving DecidableEq

/-- A `ServerNotification` as dispatched on by `_send`: either a
`ProgressNotification` (whose params are then validated) or any other
notification. -/
inductive NotificationBody
| progress (params : ProgressParams)
| otherNotification
deriving DecidableEq

/-- What `await self.session.send_notification(notification)` does for this
session: succeed, or raise one of the exception classes the `try`/`except`
in `_send` distinguishes. -/
inductive TransportOutcome
| success
| raisesValidationError
| raisesBrokenResource
| raisesClosedResource
| raisesOther (msg : String)
deriving DecidableEq

/-- The session as the manager observes it: whether
`hasattr(session, 'send_notification')` holds, and how the transport
behaves on a send. -/
structure Session where
  hasSendNotificationAttr : Bool
  outcome : TransportOutcome
deriving DecidableEq

/-- `NotificationManager` state: the session (`none` models a falsy
`self.session`) and the `_closed` flag. -/
structure NotificationManager where
  session : Option Session
  closed : Bool

/-- The transport call with its `except` clauses (`notifications.py` lines
111-122): success returns `True`; `ValidationError`, `BrokenResourceError`,
`ClosedResourceError` and any other `Exception` are caught, logged and
turned into `False`. -/
def transportSend (s : Session) : Bool :=
  match s.outcome with
  | TransportOutcome.success => true
  | TransportOutcome.raisesValidationError => false
  | TransportOutcome.raisesBrokenResource => false
  | TransportOutcome.raisesClosedResource => false
  | TransportOutcome.raisesOther _ => false

/-- The inner `_send` coroutine (`notifications.py` lines 91-122): validate
progress notifications field by field, rejecting malformed ones with
`False`, then attempt the transport send. -/
def sendInner (s : Session) (n : NotificationBody) : Bool :=
  match n with
  | NotificationBody.progress params =>
    if isStrOrInt params.progressToken = false then false
    else if isNumeric params.progress = false then false
    else if (match params.total with
             | some t => isNumeric t = false
             | none => false : Bool) then false
    else transportSend s
  | NotificationBody.otherNotification => transportSend s

/-- `NotificationManager.send_notification` (`notifications.py` lines
67-132): `False` immediately when closed or when the session is missing or
lacks `send_notification`; otherwise run `_send`, in a shielded cancel scope
when `shield` is set (the shield does not change the returned flag, it only
protects the send from cancellation; source default `shield = True`). -/
def send_notification (m : NotificationManager) (n : NotificationBody)
    (shield : Bool) : Bool :=
  if m.closed then false
  else
    match m.session with
    | none => false
    | some s =>
      if s.hasSendNotificationAttr = false then false
      else
        match shield with
        | true => sendInner s n
        | false => sendInner s n

end Notifications

namespace Tools

/-- A progress token as constrained by `get_progress_token` (`tools.py` lines
37-56): a Python `str` or `int`. -/
inductive PToken
| str (s : String)
| int (i : Int)
deriving DecidableEq

/-- Python truthiness of a progress token, as tested by
`if not progress_token:` in `send_progress` (line 116): the integer `0` and
the empty string are falsy. -/
def pyTruthy : PToken → Bool
  | PToken.str s => decide (s ≠ "")
  | PToken.int i => decide (i ≠ 0)

/-- The progress notification handed to `safe_send_notification`: token,
clamped progress value, total. -/
structure SentProgress where
  progressToken : PToken
  progress : ℚ
  total : ℚ
deriving DecidableEq

/-- `create_progress_notification(progress_token, progress, total)`
(`notifications.py` lines 19-50): clamp the progress into `[0, total]`
(defaulting `total` to 100 when absent) and build the notification. -/
def create_progress_notification (progress_token : PToken) (progress : ℚ)
    (total : Option ℚ) : SentProgress :=
  let t := total.getD 100
  ⟨progress_token, max 0 (min progress t), t⟩

/-- `send_progress(session, progress_token, progress, total)` (`tools.py`
lines 106-131).  A falsy token returns immediately without sending; otherwise
the progress is clamped into `[0, total]` and a notification is built and
handed to `safe_send_notification`.  The result is the notification that was
handed over, `none` when nothing was sent. -/
def send_progress (progress_token : PToken) (progress total : ℚ) :
    Option SentProgress :=
  if pyTruthy progress_token = false then none
  else
    some (create_progress_notification progress_token
      (max 0 (min progress total)) (some total))

/-- The guarded progress call of `handle_create_image`:
`if progress_token is not None and session is not None: await
send_progress(session, progress_token, p, total)`.  The result is the list
of notifications actually handed to the transport (empty or a singleton). -/
def maybeProgress (progress_token : Option PToken) (hasSession : Bool)
    (progress total : ℚ) : List SentProgress :=
  match progress_token, hasSession with
  | some tok, true => (send_progress tok progress total).toList
  | _, _ => []

/-- The content items `handle_create_image` appends, one constructor per
f-string template of the source (`tools.py`): the initial status line, the
"generated n images" line, an image payload (compressed bytes and MIME type;
the base64 serialization before transport is injective and is omitted), the
per-image separator line, the per-image codec-error line, the cancellation
line, the timeout-error line and the generic-error line. -/
inductive Content
| statusText
| generatedText (n : Nat) (prompt : String)
| imageItem (data : List Nat) (mime : String)
| separatorText (idx : Nat)
| errorText (idx : Nat) (msg : String)
| cancelledText
| timeoutErrorText (msg : String)
| genericErrorText (msg : String)
deriving DecidableEq

/-- How the awaited `connector.create_image` call terminates, as observed by
the `try`/`except` clauses of `handle_create_image`: a list of image byte
strings, a `TimeoutError`, an `asyncio.CancelledError` delivered at this
suspension point (e.g. mid-retry-sleep), or any other exception. -/
inductive ProviderCall
| ok (images : List (List Nat))
| timeoutError (msg : String)
| cancelled
| otherError (msg : String)

/-- The per-image processing loop of `handle_create_image` (`tools.py` lines
202-240), run inside `CancelScope(shield=True)`.  `codec image_data` is
`compress_image_data(image_data["data"])`: the compressed bytes and MIME
type, or the exception message when compression raises.  On success the
image item, a separator line and a progress update `50 + 50 * (idx / N)` are
appended; on failure only the error line is appended and processing
continues with the remaining images. -/
def processImages (codec : List Nat → Except String (List Nat × String))
    (progress_token : Option PToken) (hasSession : Bool) (total_images : Nat)
    (idx : Nat) (images : List (List Nat)) : List Content × List SentProgress :=
  match images with
  | [] => ([], [])
  | image_data :: rest =>
    match codec image_data with
    | Except.ok cm =>
      let prog := maybeProgress progress_token hasSession
        (50 + 50 * ((idx : ℚ) / (total_images : ℚ))) 100
      let tail := processImages codec progress_token hasSession total_images (idx + 1) rest
      (Content.imageItem cm.1 cm.2 :: Content.separatorText idx :: tail.1,
       prog ++ tail.2)
    | Except.error e =>
      let tail := processImages codec progress_token hasSession total_images (idx + 1) rest
      (Content.errorText idx e :: tail.1, tail.2)

/-- `handle_create_image` (`tools.py` lines 147-288).  The status line is
appended first; progress 0% is sent (when a token and session exist); then
the provider call runs.  Cancellation, timeout and other provider errors
each append their text item to the results accumulated so far and return
them.  On success, progress 50% is sent, the header line is appended, the
shielded per-image loop runs, and a final 100% progress is sent.  The result
is the content list together with the progress notifications handed to the
transport, in order. -/
def handle_create_image (progress_token : Option PToken) (hasSession : Bool)
    (provider : ProviderCall)
    (codec : List Nat → Except String (List Nat × String)) (prompt : String) :
    List Content × List SentProgress :=
  let results := [Content.statusText]
  let events0 := maybeProgress progress_token hasSession 0 100
  match provider with
  | ProviderCall.cancelled => (results ++ [Content.cancelledText], events0)
  | ProviderCall.timeoutError msg => (results ++ [Content.timeoutErrorText msg], events0)
  | ProviderCall.otherError msg => (results ++ [Content.genericErrorText msg], events0)
  | ProviderCall.ok images =>
    let events1 := maybeProgress progress_token hasSession 50 100
    let header := Content.generatedText images.length prompt
    let body := processImages codec progress_token hasSession images.length 1 images
    let events2 := maybeProgress progress_token hasSession 100 100
    (results ++ [header] ++ body.1, events0 ++ events1 ++ body.2 ++ events2)

/-- Number of image content items in a result list. -/
def countImageItems (cs : List Content) : Nat :=
  (cs.filter (fun c => match c with | Content.imageItem _ _ => true | _ => false)).length

/-- Number of per-image codec-error text items in a result list. -/
def countErrorTexts (cs : List Content) : Nat :=
  (cs.filter (fun c => match c with | Content.errorText _ _ => true | _ => false)).length

end Tools

namespace Fixtures

open ImageUtils LLM Tools Notifications

/-- PIL stand-in whose JPEG encoder produces `q` bytes at quality `q`
(so size is monotone in quality); its PNG encoders are unused and encode to
nothing. -/
def opsLinear : PILOps :=
  ⟨fun _ => [],
   fun _ => [],
   fun _ q => List.replicate q.toNat 0,
   fun img _ _ => img.pixels⟩

/-- PIL stand-in whose plain PNG encoder always produces 50 bytes. -/
def opsPng50 : PILOps :=
  ⟨fun _ => List.replicate 50 0,
   fun _ => List.replicate 50 0,
   fun _ q => List.replicate q.toNat 0,
   fun img _ _ => img.pixels⟩

/-- PIL stand-in whose JPEG encoder serializes the red channel of every
pixel (so the encoding distinguishes pixel contents) and whose optimized
PNG encoder produces 7 bytes. -/
def opsPixelJPEG : PILOps :=
  ⟨fun _ => List.replicate 7 0,
   fun _ => List.replicate 7 0,
   fun img _ => img.pixels.map Pixel.r,
   fun img _ _ => img.pixels⟩

/-- An opaque 1x1 RGB image. -/
def imgRGB : Img := ⟨Mode.RGB, 1, 1, [⟨0, 0, 0, 255⟩], false⟩

/-- An 800x2000 opaque RGB image: taller than 1024 but narrower than 1024. -/
def imgTall : Img := ⟨Mode.RGB, 800, 2000, [], false⟩

/-- A fully transparent black 1x1 `LA` image. -/
def imgLA : Img := ⟨Mode.LA, 1, 1, [⟨0, 0, 0, 0⟩], false⟩

/-- A half-transparent 1x1 RGBA image. -/
def imgRGBA : Img := ⟨Mode.RGBA, 1, 1, [⟨10, 20, 30, 128⟩], false⟩

/-- A provider that times out on every attempt. -/
def providerTimeout : Nat → AttemptOutcome :=
  fun _ => AttemptOutcome.timeout "Request timed out"

/-- A random source that always draws the lower bound of the interval. -/
def uniformLow : ℚ → ℚ → ℚ := fun a _ => a

/-- A codec that fails exactly on the byte string `[1]`. -/
def codecFailOn1 : List Nat → Except String (List Nat × String) :=
  fun d => if d = [1] then Except.error "boom" else Except.ok (d, "image/jpeg")

/-- A codec that always succeeds. -/
def codecOkAll : List Nat → Except String (List Nat × String) :=
  fun d => Except.ok (d, "image/png")

end Fixtures

namespace Tools

/-- Whether the codec succeeds on one image's data. -/
def codecOk (codec : List Nat → Except String (List Nat × String))
    (d : List Nat) : Bool :=
  match codec d with
  | Except.ok _ => true
  | Except.error _ => false

end Tools

section ClaimNine

open LLM

/-- C9: for every attempt and every value drawn from the random source,
`calculate_backoff_delay` returns `base_delay * 2 ^ retry` plus a symmetric
jitter of magnitude at most `delay * jitter`, clamped to at least
`base_delay`; hence the returned delay is always at least `base_delay` and
strictly positive, for every attempt. -/
theorem backoff_delay_spec (uniform : ℚ → ℚ → ℚ) (retry : Nat)
    (base_delay jitter : ℚ) (hbase : 0 < base_delay) (hjit : 0 ≤ jitter)
    (hu : ∀ a b : ℚ, a ≤ b → a ≤ uniform a b ∧ uniform a b ≤ b) :
    base_delay ≤ calculate_backoff_delay uniform retry base_delay jitter ∧
    0 < calculate_backoff_delay uniform retry base_delay jitter ∧
    ∃ u : ℚ, -(base_delay * 2 ^ retry * jitter) ≤ u ∧
      u ≤ base_delay * 2 ^ retry * jitter ∧
      calculate_backoff_delay uniform retry base_delay jitter =
        max base_delay (base_delay * 2 ^ retry + u) := by
  have hja : (0 : ℚ) ≤ base_delay * 2 ^ retry * jitter := by positivity
  have hbounds := hu (-(base_delay * 2 ^ retry * jitter))
    (base_delay * 2 ^ retry * jitter) (by linarith)
  refine ⟨le_max_left _ _, lt_of_lt_of_le hbase (le_max_left _ _),
    uniform (-(base_delay * 2 ^ retry * jitter)) (base_delay * 2 ^ retry * jitter),
    hbounds.1, hbounds.2, rfl⟩

/-- Witness for C9 at `retry = 2`, default `base_delay = 1`,
`jitter = 1/10`, with the random source that draws the lower bound. -/
theorem backoff_delay_spec_witness :
    (1 : ℚ) ≤ calculate_backoff_delay Fixtures.uniformLow 2 1 (1 / 10) ∧
    (0 : ℚ) < calculate_backoff_delay Fixtures.uniformLow 2 1 (1 / 10) ∧
    ∃ u : ℚ, -((1 : ℚ) * 2 ^ 2 * (1 / 10)) ≤ u ∧
      u ≤ (1 : ℚ) * 2 ^ 2 * (1 / 10) ∧
      calculate_backoff_delay Fixtures.uniformLow 2 1 (1 / 10) =
        max 1 ((1 : ℚ) * 2 ^ 2 + u) :=
  backoff_delay_spec Fixtures.uniformLow 2 1 (1 / 10) one_pos (by norm_num)
    (fun a b h => ⟨le_refl a, h⟩)

end ClaimNine

section ClaimTen

open Tools

/-- Everything `processImages` sends goes through the truthiness check of
`send_progress`; a falsy token is dropped, so the loop sends nothing. -/
theorem processImages_falsy_token (codec : List Nat → Except String (List Nat × String))
    (tok : PToken) (htok : pyTruthy tok = false) (hs : Bool) (n : Nat) :
    ∀ (images : List (List Nat)) (idx : Nat),
      (processImages codec (some tok) hs n idx images).2 = [] := by
  intro images
  induction images with
  | nil => intro idx; simp [processImages]
  | cons d rest ih =>
    intro idx
    cases hc : codec d with
    | ok cm =>
      cases hs with
      | true => simp [processImages, hc, maybeProgress, send_progress, htok, ih]
      | false => simp [processImages, hc, maybeProgress, ih]
    | error e => simp [processImages, hc, ih]

/-- C10: a progress token equal to the integer `0` or to the empty string is
treated as absent by the truthiness check in `send_progress`, which returns
without sending; consequently `handle_create_image` never delivers a single
progress notification for such a request, even though both tokens pass the
`isinstance(token, (str, int))` type check and the `is not None` guard. -/
theorem falsy_token_drops_progress_spec (progress total : ℚ)
    (provider : ProviderCall)
    (codec : List Nat → Except String (List Nat × String)) (prompt : String) :
    send_progress (PToken.int 0) progress total = none ∧
    send_progress (PToken.str "") progress total = none ∧
    (handle_create_image (some (PToken.int 0)) true provider codec prompt).2 = [] ∧
    (handle_create_image (some (PToken.str "")) true provider codec prompt).2 = [] := by
  have h0 : pyTruthy (PToken.int 0) = false := by decide
  have hs : pyTruthy (PToken.str "") = false := by decide
  refine ⟨by simp [send_progress, h0], by simp [send_progress, hs], ?_, ?_⟩
  · cases provider with
    | ok images =>
      simp [handle_create_image, maybeProgress, send_progress, h0,
        processImages_falsy_token codec (PToken.int 0) h0 true images.length images 1]
    | timeoutError msg => simp [handle_create_image, maybeProgress, send_progress, h0]
    | cancelled => simp [handle_create_image, maybeProgress, send_progress, h0]
    | otherError msg => simp [handle_create_image, maybeProgress, send_progress, h0]
  · cases provider with
    | ok images =>
      simp [handle_create_image, maybeProgress, send_progress, hs,
        processImages_falsy_token codec (PToken.str "") hs true images.length images 1]
    | timeoutError msg => simp [handle_create_image, maybeProgress, send_progress, hs]
    | cancelled => simp [handle_create_image, maybeProgress, send_progress, hs]
    | otherError msg => simp [handle_create_image, maybeProgress, send_progress, hs]

end ClaimTen

section ClaimFour

open Notifications

/-- C4: `NotificationManager.send_notification` always returns a delivered
flag and never raises: once the manager is closed every send returns
`false`; a missing or incapable session returns `false`; every transport
failure (validation error, broken or closed resource, any other exception)
returns `false`; a malformed progress notification (non-string/int token,
non-numeric progress or total) is rejected with `false`; and the flag is
`true` only when the manager is open and the transport send genuinely
succeeded.  Totality of the embedding reflects that every exception path in
the source is caught and converted to a return value. -/
theorem send_notification_never_raises_spec (m : NotificationManager)
    (n : NotificationBody) (shield : Bool) :
    (m.closed = true → send_notification m n shield = false) ∧
    (m.session = none → send_notification m n shield = false) ∧
    (∀ s, m.session = some s → s.hasSendNotificationAttr = false →
      send_notification m n shield = false) ∧
    (∀ s, m.session = some s → s.outcome ≠ TransportOutcome.success →
      send_notification m n shield = false) ∧
    (∀ params, n = NotificationBody.progress params →
      isStrOrInt params.progressToken = false → send_notification m n shield = false) ∧
    (∀ params, n = NotificationBody.progress params →
      isNumeric params.progress = false → send_notification m n shield = false) ∧
    (∀ params t, n = NotificationBody.progress params → params.total = some t →
      isNumeric t = false → send_notification m n shield = false) ∧
    (send_notification m n shield = true →
      m.closed = false ∧ ∃ s, m.session = some s ∧
        s.outcome = TransportOutcome.success) := by
  obtain ⟨sess, closed⟩ := m
  cases closed with
  | true => simp [send_notification]
  | false =>
    cases sess with
    | none => simp [send_notification]
    | some s =>
      obtain ⟨attr, outc⟩ := s
      cases attr with
      | false => simp [send_notification]
      | true =>
        refine ⟨by simp, by simp, by simp, ?_, ?_, ?_, ?_, ?_⟩
        · rintro s' hs' houtc
          obtain rfl : (⟨true, outc⟩ : Session) = s' := by simpa using hs'
          simp only at houtc
          cases shield <;> cases n with
          | progress params =>
            simp only [send_notification, sendInner]
            cases hst : isStrOrInt params.progressToken <;>
            cases hnp : isNumeric params.progress <;>
            cases outc <;>
              simp_all [transportSend]
          | otherNotification =>
            cases outc <;> simp_all [send_notification, sendInner, transportSend]
        · rintro params rfl hst
          cases shield <;> simp [send_notification, sendInner, hst]
        · rintro params rfl hnp
          cases shield <;>
            cases hst : isStrOrInt params.progressToken <;>
            simp [send_notification, sendInner, hst, hnp]
        · rintro params t rfl htot hnt
          cases shield <;>
            cases hst : isStrOrInt params.progressToken <;>
            cases hnp : isNumeric params.progress <;>
            simp [send_notification, sendInner, hst, hnp, htot, hnt]
        · intro htrue
          refine ⟨rfl, ⟨true, outc⟩, rfl, ?_⟩
          cases outc with
          | success => rfl
          | raisesValidationError =>
            cases shield <;> cases n <;>
              simp_all [send_notification, sendInner, transportSend]
          | raisesBrokenResource =>
            cases shield <;> cases n <;>
              simp_all [send_notification, sendInner, transportSend]
          | raisesClosedResource =>
            cases shield <;> cases n <;>
              simp_all [send_notification, sendInner, transportSend]
          | raisesOther msg =>
            cases shield <;> cases n <;>
              simp_all [send_notification, sendInner, transportSend]

/-- Witness for C4: a closed manager drops a send, and an open manager whose
transport raises `BrokenResourceError` reports `false` instead of raising. -/
theorem send_notification_never_raises_spec_witness :
    send_notification ⟨some ⟨true, TransportOutcome.success⟩, true⟩
      NotificationBody.otherNotification true = false ∧
    send_notification ⟨some ⟨true, TransportOutcome.raisesBrokenResource⟩, false⟩
      NotificationBody.otherNotification true = false := by
  constructor
  · exact (send_notification_never_raises_spec
      ⟨some ⟨true, TransportOutcome.success⟩, true⟩
      NotificationBody.otherNotification true).1 rfl
  · exact (send_notification_never_raises_spec
      ⟨some ⟨true, TransportOutcome.raisesBrokenResource⟩, false⟩
      NotificationBody.otherNotification true).2.2.2.1
      ⟨true, TransportOutcome.raisesBrokenResource⟩ rfl (by decide)

end ClaimFour

section ClaimTwo

open ImageUtils ImageUtilsV2

/-- C2 counterexample: with raw bytes already inside the budget
(10 bytes, budget 100), the `src/mcp_server_openai` variant of
`compress_image_data` re-encodes as PNG and returns whatever that encoder
produces — here 50 bytes, larger than the 10-byte original — so the claimed
bound "output size ≤ original size" fails; and the `src/mcp_openai` variant
returns the original bytes untouched rather than a PNG re-encoding (its
output differs from the PNG encoder's output), so "re-encoded losslessly as
PNG" fails there. -/
theorem compress_small_counterexample :
    (compress_image_data_v2 Fixtures.opsPng50 Fixtures.imgRGB
        (List.replicate 10 7) 100).1.length = 50 ∧
    (List.replicate 10 7).length = 10 ∧
    ¬ (compress_image_data_v2 Fixtures.opsPng50 Fixtures.imgRGB
        (List.replicate 10 7) 100).1.length ≤ (List.replicate 10 7).length ∧
    (compress_image_data Fixtures.opsPng50 Fixtures.imgRGB
        (List.replicate 10 7) 100).1 = List.replicate 10 7 ∧
    (compress_image_data Fixtures.opsPng50 Fixtures.imgRGB
        (List.replicate 10 7) 100).1 ≠
      Fixtures.opsPng50.encodePNG Fixtures.imgRGB := by
  refine ⟨?_, by simp, ?_, ?_, ?_⟩
  · simp [compress_image_data_v2, Fixtures.opsPng50]
  · simp [compress_image_data_v2, Fixtures.opsPng50]
  · simp [compress_image_data]
  · simp [compress_image_data, Fixtures.opsPng50]

/-- C2 amended: when the raw bytes fit the budget neither variant performs a
quality search and both return MIME `image/png`; the `src/mcp_openai`
variant returns the raw bytes unchanged (so its size equals the original),
while the `src/mcp_server_openai` variant returns a plain PNG re-encoding of
the decoded image, with no guarantee relating its size to the original. -/
theorem compress_small_passthrough_spec (ops : PILOps) (decoded : Img)
    (image_data : List Nat) (max_size : Nat)
    (h : image_data.length ≤ max_size) :
    compress_image_data ops decoded image_data max_size =
      (image_data, "image/png") ∧
    compress_image_data_v2 ops decoded image_data max_size =
      (ops.encodePNGPlain decoded, "image/png") := by
  constructor
  · simp [compress_image_data, h]
  · simp [compress_image_data_v2, h]

/-- Witness for the amended C2 at 10 bytes against a 100-byte budget. -/
theorem compress_small_passthrough_spec_witness :
    compress_image_data Fixtures.opsPng50 Fixtures.imgRGB
        (List.replicate 10 7) 100 = (List.replicate 10 7, "image/png") ∧
    compress_image_data_v2 Fixtures.opsPng50 Fixtures.imgRGB
        (List.replicate 10 7) 100 =
      (Fixtures.opsPng50.encodePNGPlain Fixtures.imgRGB, "image/png") :=
  compress_small_passthrough_spec Fixtures.opsPng50 Fixtures.imgRGB
    (List.replicate 10 7) 100 (by simp)

end ClaimTwo

section ClaimSeven

open ImageUtils

/-- C7: the resize step does not cap the height at 1024.  For a decoded
800x2000 image whose encoding exceeds the budget, `compress_image_data`
enters its resize branch (because `height > 1024`), but
`get_optimal_dimensions` only bounds the width: it returns the dimensions
unchanged, and the working image that is then encoded is still 800x2000,
with height 2000 > 1024 — contradicting the claim that both output
dimensions end up at most 1024.  (The sibling
`src/mcp_server_openai/image_utils.py` caps both dimensions with
`min(1024 / width, 1024 / height)`, and the guard
`img.width > 1024 or img.height > 1024` shows the intent; the width-only
`get_optimal_dimensions` is the slip.) -/
theorem resize_leaves_height_uncapped :
    get_optimal_dimensions 800 2000 1024 = (800, 2000) ∧
    Fixtures.imgTall.height = 2000 ∧
    (Fixtures.imgTall.width > 1024 || Fixtures.imgTall.height > 1024) = true ∧
    workingImage Fixtures.opsLinear Fixtures.imgTall = Fixtures.imgTall ∧
    1024 < (workingImage Fixtures.opsLinear Fixtures.imgTall).height := by
  refine ⟨by decide, rfl, by decide, by decide, by decide⟩

end ClaimSeven

section ClaimSix

open Tools

/-- C6 counterexample: a request cancelled during the provider call (e.g.
mid-retry-sleep) does not return a single "operation cancelled" item — the
handler appends the cancellation line to the results already accumulated, so
the returned list has two items (the initial status line plus the
cancellation line); and no cancelled-state terminal progress event is
emitted: the only notification sent is the initial 0% (and 0 is not the
total 100). -/
theorem handler_cancelled_counterexample :
    handle_create_image (some (PToken.int 5)) true ProviderCall.cancelled
        Fixtures.codecOkAll "sunset" =
      ([Content.statusText, Content.cancelledText],
       [⟨PToken.int 5, 0, 100⟩]) ∧
    (handle_create_image (some (PToken.int 5)) true ProviderCall.cancelled
        Fixtures.codecOkAll "sunset").1.length = 2 ∧
    ((handle_create_image (some (PToken.int 5)) true ProviderCall.cancelled
        Fixtures.codecOkAll "sunset").2.filter
      (fun e => e.progress == e.total)).length = 0 := by
  refine ⟨?_, ?_, ?_⟩ <;>
    simp [handle_create_image, maybeProgress, send_progress, pyTruthy,
      create_progress_notification]

/-- C6 amended: on cancellation delivered during the provider call the
handler returns the accumulated partial results with a cancellation text
item appended — always exactly the status line followed by the cancellation
line when the cancellation arrives there — and emits no cancelled-state
progress event: the event list is either empty (no token or session or a
falsy token) or the single initial 0% notification, never one whose progress
equals the total. -/
theorem handler_cancelled_spec (progress_token : Option PToken)
    (hasSession : Bool)
    (codec : List Nat → Except String (List Nat × String)) (prompt : String) :
    handle_create_image progress_token hasSession ProviderCall.cancelled
        codec prompt =
      ([Content.statusText, Content.cancelledText],
       maybeProgress progress_token hasSession 0 100) ∧
    ((handle_create_image progress_token hasSession ProviderCall.cancelled
        codec prompt).2 = [] ∨
      ∃ tok, progress_token = some tok ∧
        (handle_create_image progress_token hasSession ProviderCall.cancelled
          codec prompt).2 = [⟨tok, 0, 100⟩]) := by
  refine ⟨by simp [handle_create_image], ?_⟩
  cases progress_token with
  | none => left; simp [handle_create_image, maybeProgress]
  | some tok =>
    cases hasSession with
    | false => left; simp [handle_create_image, maybeProgress]
    | true =>
      cases htok : pyTruthy tok with
      | false => left; simp [handle_create_image, maybeProgress, send_progress, htok]
      | true =>
        right
        refine ⟨tok, rfl, ?_⟩
        simp [handle_create_image, maybeProgress, send_progress, htok,
          create_progress_notification]

end ClaimSix

section ClaimFive

open Tools

/-- The per-image loop isolates codec failures: each failure contributes
exactly one error-text item, each success exactly one image item (plus a
separator), and the loop always consumes the whole batch. -/
theorem processImages_counts (codec : List Nat → Except String (List Nat × String))
    (tok : Option PToken) (hs : Bool) (n : Nat) :
    ∀ (images : List (List Nat)) (idx : Nat),
      countErrorTexts (processImages codec tok hs n idx images).1 =
        images.countP (fun d => !(codecOk codec d)) ∧
      countImageItems (processImages codec tok hs n idx images).1 +
        countErrorTexts (processImages codec tok hs n idx images).1 =
        images.length := by
  intro images
  induction images with
  | nil => intro idx; simp [processImages, countImageItems, countErrorTexts]
  | cons d rest ih =>
    intro idx
    cases hc : codec d with
    | ok cm =>
      have h := ih (idx + 1)
      simp [processImages, hc, countImageItems, countErrorTexts,
        List.countP_cons, codecOk] at h ⊢
      omega
    | error e =>
      have h := ih (idx + 1)
      simp [processImages, hc, countImageItems, countErrorTexts,
        List.countP_cons, codecOk] at h ⊢
      omega

/-- The final 100% notification of a successful provider call is always the
last progress event the handler emits. -/
theorem handler_ok_last_event (tok : PToken) (htok : pyTruthy tok = true)
    (images : List (List Nat))
    (codec : List Nat → Except String (List Nat × String)) (prompt : String) :
    (handle_create_image (some tok) true (ProviderCall.ok images)
        codec prompt).2.getLast? = some ⟨tok, 100, 100⟩ := by
  have h100 : maybeProgress (some tok) true 100 100 =
      [⟨tok, 100, 100⟩] := by
    simp [maybeProgress, send_progress, htok, create_progress_notification]
  simp only [handle_create_image, h100]
  exact List.getLast?_concat _

/-- C5: when the provider returns `N` images and the codec fails on exactly
one of them, the handler appends one error-text item for the failing image
and keeps processing: the result holds `N - 1` image items and exactly one
error-text item, and the final progress event is the terminal 100% (out of
100) notification. -/
theorem handler_partial_codec_failure_spec (tok : PToken)
    (htok : pyTruthy tok = true) (images : List (List Nat))
    (codec : List Nat → Except String (List Nat × String)) (prompt : String)
    (hone : images.countP (fun d => !(codecOk codec d)) = 1) :
    countImageItems (handle_create_image (some tok) true
        (ProviderCall.ok images) codec prompt).1 = images.length - 1 ∧
    countErrorTexts (handle_create_image (some tok) true
        (ProviderCall.ok images) codec prompt).1 = 1 ∧
    (handle_create_image (some tok) true (ProviderCall.ok images)
        codec prompt).2.getLast? = some ⟨tok, 100, 100⟩ := by
  have hc := processImages_counts codec (some tok) true images.length images 1
  have hitems : countImageItems (handle_create_image (some tok) true
        (ProviderCall.ok images) codec prompt).1 =
      countImageItems (processImages codec (some tok) true
        images.length 1 images).1 := by
    simp [handle_create_image, countImageItems]
  have herrs : countErrorTexts (handle_create_image (some tok) true
        (ProviderCall.ok images) codec prompt).1 =
      countErrorTexts (processImages codec (some tok) true
        images.length 1 images).1 := by
    simp [handle_create_image, countErrorTexts]
  refine ⟨?_, ?_, handler_ok_last_event tok htok images codec prompt⟩
  · rw [hitems]; omega
  · rw [herrs]; omega

/-- Witness for C5: three images, codec failing exactly on the second. -/
theorem handler_partial_codec_failure_spec_witness :
    countImageItems (handle_create_image (some (PToken.int 7)) true
        (ProviderCall.ok [[0], [1], [2]]) Fixtures.codecFailOn1 "cat").1 = 2 ∧
    countErrorTexts (handle_create_image (some (PToken.int 7)) true
        (ProviderCall.ok [[0], [1], [2]]) Fixtures.codecFailOn1 "cat").1 = 1 ∧
    (handle_create_image (some (PToken.int 7)) true
        (ProviderCall.ok [[0], [1], [2]])
        Fixtures.codecFailOn1 "cat").2.getLast? =
      some ⟨PToken.int 7, 100, 100⟩ :=
  handler_partial_codec_failure_spec (PToken.int 7) (by decide)
    [[0], [1], [2]] Fixtures.codecFailOn1 "cat" (by decide)

end ClaimFive

section ClaimThree

open LLM

/-- Unfolding of the all-timeouts trace: each non-final attempt is followed
by exactly one backoff sleep. -/
theorem timeoutTrace_cons (uniform : ℚ → ℚ → ℚ) (max_retries c : Nat)
    (h : c < max_retries) :
    timeoutTrace uniform max_retries c =
      Ev.attempt c ::
        Ev.sleep (calculate_backoff_delay uniform (c + 1) 1 (1 / 10)) ::
        timeoutTrace uniform max_retries (c + 1) := by
  have h1 : max_retries + 1 - c = (max_retries - c) + 1 := by omega
  have h2 : max_retries + 1 - (c + 1) = max_retries - c := by omega
  simp only [timeoutTrace, h1, h2, List.range'_succ, List.map_cons,
    List.flatten_cons, if_pos h]
  rfl

/-- The last element of the all-timeouts trace. -/
theorem timeoutTrace_last (uniform : ℚ → ℚ → ℚ) (max_retries : Nat) :
    timeoutTrace uniform max_retries max_retries = [Ev.attempt max_retries] := by
  have h1 : max_retries + 1 - max_retries = 1 := by omega
  simp [timeoutTrace, h1, List.range'_succ]

/-- If the provider times out on every attempt, the retry loop entered with
`current_retry = c ≤ max_retries` performs the remaining attempts with one
backoff sleep between consecutive attempts and ends in the post-loop
`TimeoutError` carrying the message of the final attempt. -/
theorem createImageLoop_timeout (provider : Nat → AttemptOutcome)
    (uniform : ℚ → ℚ → ℚ) (msg : Nat → String)
    (hp : ∀ i, provider i = AttemptOutcome.timeout (msg i)) (max_retries : Nat) :
    ∀ (k c : Nat), c + k = max_retries →
      ∀ (events : List Ev) (last_error : Option String),
      createImageLoop provider uniform max_retries c last_error events =
        (Except.error (mkTimeoutError uniform max_retries (max_retries + 1)
           (some (msg max_retries))),
         events ++ timeoutTrace uniform max_retries c) := by
  intro k
  induction k with
  | zero =>
    intro c hc events last_error
    have hcm : c = max_retries := by omega
    subst hcm
    have hno : ¬ (c + 1 ≤ c) := by omega
    rw [createImageLoop]
    simp [hp c, hno, timeoutTrace_last]
  | succ k ih =>
    intro c hc events last_error
    have hlt : c < max_retries := by omega
    have hyes : c + 1 ≤ max_retries := by omega
    rw [createImageLoop]
    simp only [hp c, if_pos (by omega : c ≤ max_retries), if_pos hyes]
    rw [ih (c + 1) (by omega)]
    rw [timeoutTrace_cons uniform max_retries c hlt]
    simp

/-- C3: if the provider times out on every attempt, `create_image` with any
`max_retries` in 0..5 makes exactly `max_retries + 1` attempts, sleeping one
backoff delay between consecutive attempts (the trace is attempt 0, sleep,
attempt 1, sleep, ..., attempt `max_retries`), and raises a `TimeoutError`
carrying the last observed error; with `max_retries = 3` this is exactly 4
attempts. -/
theorem create_image_timeout_retries_spec (provider : Nat → AttemptOutcome)
    (uniform : ℚ → ℚ → ℚ) (msg : Nat → String) (max_retries : Nat)
    (hmr : max_retries ≤ 5)
    (hp : ∀ i, provider i = AttemptOutcome.timeout (msg i)) :
    create_image false provider uniform max_retries =
      (Except.error (CreateError.timeoutError max_retries
         (totalBackoffTime uniform (max_retries + 1)) (some (msg max_retries))),
       timeoutTrace uniform max_retries 0) ∧
    countAttempts (create_image false provider uniform max_retries).2 =
      max_retries + 1 := by
  have hmain : create_image false provider uniform max_retries =
      (Except.error (mkTimeoutError uniform max_retries (max_retries + 1)
         (some (msg max_retries))),
       timeoutTrace uniform max_retries 0) := by
    show createImageLoop provider uniform max_retries 0 none [] = _
    rw [createImageLoop_timeout provider uniform msg hp max_retries max_retries 0
      (by omega) [] none]
    simp
  refine ⟨by simpa [mkTimeoutError] using hmain, ?_⟩
  rw [hmain]
  have hcount : ∀ (k c : Nat), c + k = max_retries →
      countAttempts (timeoutTrace uniform max_retries c) = k + 1 := by
    intro k
    induction k with
    | zero =>
      intro c hc
      have hcm : c = max_retries := by omega
      subst hcm
      simp [timeoutTrace_last, countAttempts]
    | succ k ih =>
      intro c hc
      rw [timeoutTrace_cons uniform max_retries c (by omega)]
      have := ih (c + 1) (by omega)
      simp [countAttempts, List.filter] at this ⊢
      omega
  exact hcount max_retries 0 (by omega)

/-- Witness for C3: `max_retries = 3` with an always-timing-out provider
makes exactly 4 attempts and ends in the `TimeoutError`. -/
theorem create_image_timeout_retries_spec_witness :
    create_image false Fixtures.providerTimeout Fixtures.uniformLow 3 =
      (Except.error (CreateError.timeoutError 3
         (totalBackoffTime Fixtures.uniformLow 4) (some "Request timed out")),
       timeoutTrace Fixtures.uniformLow 3 0) ∧
    countAttempts (create_image false Fixtures.providerTimeout
      Fixtures.uniformLow 3).2 = 4 :=
  create_image_timeout_retries_spec Fixtures.providerTimeout Fixtures.uniformLow
    (fun _ => "Request timed out") 3 (by norm_num) (fun _ => rfl)

end ClaimThree

section ClaimEight

open ImageUtils

/-- Every element of a `zipWith` is an application of the combining
function. -/
theorem exists_of_mem_zipWith {α β γ : Type} (f : α → β → γ) :
    ∀ (l₁ : List α) (l₂ : List β), ∀ c ∈ List.zipWith f l₁ l₂,
      ∃ a b, c = f a b := by
  intro l₁
  induction l₁ with
  | nil => intro l₂ c hc; simp at hc
  | cons a l₁ ih =>
    intro l₂ c hc
    cases l₂ with
    | nil => simp at hc
    | cons b l₂ =>
      simp only [List.zipWith_cons_cons, List.mem_cons] at hc
      cases hc with
      | inl h => exact ⟨a, b, h⟩
      | inr h => exact ih l₂ c h

/-- C8 counterexample: a fully transparent 1x1 `LA` image whose optimized
PNG exceeds the budget is flattened by `background.paste(img)` without a
mask, so its black colour channel overwrites the white background even
though its alpha is 0; alpha-compositing with the image's own alpha channel
(what the claim states) would instead leave the background white.  With an
encoder that serializes the red channel, the compressed output is `[0]`
(black survives), while the claimed composite would encode to `[255]`. -/
theorem transparent_flatten_counterexample :
    compress_image_data Fixtures.opsPixelJPEG Fixtures.imgLA
        (List.replicate 6 0) 5 = ([0], "image/jpeg") ∧
    isTransparent Fixtures.imgLA = true ∧
    Fixtures.opsPixelJPEG.encodeJPEG
        (alphaCompositedOnWhite Fixtures.imgLA) 95 = [255] ∧
    flattenOnWhite Fixtures.imgLA ≠ alphaCompositedOnWhite Fixtures.imgLA ∧
    ([0] : List Nat) ≠ [255] := by
  refine ⟨?_, by decide, by decide, by decide, by decide⟩
  simp [compress_image_data, workingImage, Fixtures.imgLA, Fixtures.opsPixelJPEG,
    isTransparent, flattenOnWhite, pasteNoMask, newRGBWhite, whitePixel,
    binary_search_quality, bsqLoop.eq_def, saveWith]

/-- C8 amended: for every transparent image whose optimized PNG exceeds the
budget, the result MIME type is `image/jpeg` and the encoded image is the
flattening onto an opaque white `RGB` background (so it has no alpha
channel: every pixel is fully opaque); but only `RGBA` images are flattened
by alpha-compositing with their own alpha channel as the mask — `LA` and
palette images are pasted without a mask, their colour channels overwriting
the white background. -/
theorem transparent_flatten_spec (ops : PILOps) (decoded : Img)
    (image_data : List Nat) (max_size : Nat)
    (hbig : image_data.length > max_size)
    (htr : isTransparent (workingImage ops decoded) = true)
    (hpng : (ops.encodePNG (workingImage ops decoded)).length > max_size) :
    compress_image_data ops decoded image_data max_size =
      ((binary_search_quality ops (flattenOnWhite (workingImage ops decoded))
          Format.JPEG max_size 30).1, "image/jpeg") ∧
    (flattenOnWhite (workingImage ops decoded)).mode = Mode.RGB ∧
    (∀ p ∈ (flattenOnWhite (workingImage ops decoded)).pixels, p.a = 255) ∧
    ((workingImage ops decoded).mode = Mode.RGBA →
      flattenOnWhite (workingImage ops decoded) =
        alphaCompositedOnWhite (workingImage ops decoded)) ∧
    ((workingImage ops decoded).mode ≠ Mode.RGBA →
      flattenOnWhite (workingImage ops decoded) =
        pasteNoMask
          (newRGBWhite (workingImage ops decoded).width
            (workingImage ops decoded).height)
          (workingImage ops decoded)) := by
  have hnb : ¬ image_data.length ≤ max_size := by omega
  have hnp : ¬ (ops.encodePNG (workingImage ops decoded)).length ≤ max_size := by
    omega
  refine ⟨?_, ?_, ?_, ?_, ?_⟩
  · simp [compress_image_data, hnb, htr, hpng, hnp]
  · by_cases hm : (workingImage ops decoded).mode = Mode.RGBA <;>
      simp [flattenOnWhite, hm, pasteWithAlphaMask, pasteNoMask, newRGBWhite]
  · intro p hp
    by_cases hm : (workingImage ops decoded).mode = Mode.RGBA
    · simp only [flattenOnWhite, hm, if_pos] at hp
      simp only [pasteWithAlphaMask] at hp
      obtain ⟨a, b, rfl⟩ := exists_of_mem_zipWith _ _ _ p hp
      rfl
    · simp only [flattenOnWhite, hm, if_neg, ite_false] at hp
      simp only [pasteNoMask, List.mem_map] at hp
      obtain ⟨f, hf, rfl⟩ := hp
      rfl
  · intro hm
    simp [flattenOnWhite, hm, alphaCompositedOnWhite]
  · intro hm
    simp [flattenOnWhite, hm]

/-- Witness for the amended C8 at a half-transparent 1x1 RGBA image: there
the flattening is the alpha composite, and the result MIME is JPEG. -/
theorem transparent_flatten_spec_witness :
    flattenOnWhite (workingImage Fixtures.opsPixelJPEG Fixtures.imgRGBA) =
      alphaCompositedOnWhite
        (workingImage Fixtures.opsPixelJPEG Fixtures.imgRGBA) ∧
    (compress_image_data Fixtures.opsPixelJPEG Fixtures.imgRGBA
        (List.replicate 6 0) 5).2 = "image/jpeg" := by
  have h := transparent_flatten_spec Fixtures.opsPixelJPEG Fixtures.imgRGBA
    (List.replicate 6 0) 5 (by simp) (by decide) (by decide)
  exact ⟨h.2.2.2.1 (by decide), by rw [h.1]⟩

end ClaimEight

section ClaimOne

open ImageUtils

/-- Bounds on the Python floor-division midpoint `(low + high) // 2`. -/
theorem mid_bounds {low high : Int} (h : low ≤ high) :
    low ≤ (low + high).fdiv 2 ∧ (low + high).fdiv 2 ≤ high := by
  rw [Int.fdiv_eq_ediv _ (by norm_num)]
  omega

/-- If no quality in the current search interval fits the budget, the loop
never updates its best candidate and returns its input state. -/
theorem bsqLoop_const_of_unfit (ops : PILOps) (img : Img) (format : Format)
    (target_size : Nat) :
    ∀ (low high : Int) (best_data : Option (List Nat)) (best_quality : Int),
      (∀ q, low ≤ q → q ≤ high → ¬ fitsAt ops img format target_size q) →
      bsqLoop ops img format target_size low high best_data best_quality =
        (best_data, best_quality) := by
  intro low high best_data best_quality
  induction low, high, best_data, best_quality
    using bsqLoop.induct ops img format target_size with
  | case1 low high best bq h1 mid data hfit ih =>
    intro hall
    have hb := mid_bounds h1
    exact absurd hfit (hall mid hb.1 hb.2)
  | case2 low high best bq h1 mid data hnfit ih =>
    intro hall
    have hb := mid_bounds h1
    rw [bsqLoop]
    simp only [dif_pos h1, if_neg hnfit]
    exact ih (fun q hq1 hq2 => hall q hq1 (by linarith [hb.2]))
  | case3 low high best bq h1 =>
    intro hall
    rw [bsqLoop]
    simp [dif_neg h1]

/-- Loop invariant of `binary_search_quality` under a downward-closed fit
predicate (sizes monotone in quality): everything above `high` fails; an
empty best candidate means the floor was never raised; a recorded best
candidate fits, sits just below `low`, and stores its own encoding.  The
conclusion reads off the final state: `none` means no quality in
`[min_quality, 95]` fits, and a returned candidate fits, is the greatest
fitting quality in range, and carries its own encoding. -/
theorem bsqLoop_invariant (ops : PILOps) (img : Img) (format : Format)
    (target_size : Nat) (min_quality : Int)
    (hdc : ∀ q q' : Int, q ≤ q' → fitsAt ops img format target_size q' →
      fitsAt ops img format target_size q) :
    ∀ (low high : Int) (best_data : Option (List Nat)) (best_quality : Int),
      min_quality ≤ low → low ≤ high + 1 → high ≤ 95 →
      (∀ q, high < q → q ≤ 95 → ¬ fitsAt ops img format target_size q) →
      (best_data = none → low = min_quality) →
      (∀ d, best_data = some d → best_quality = low - 1 ∧
        min_quality ≤ best_quality ∧
        fitsAt ops img format target_size best_quality ∧
        d = saveWith ops img format best_quality) →
      ∀ bd bq,
        bsqLoop ops img format target_size low high best_data best_quality =
          (bd, bq) →
        (bd = none →
          ∀ q, min_quality ≤ q → q ≤ 95 → ¬ fitsAt ops img format target_size q) ∧
        (∀ d, bd = some d → min_quality ≤ bq ∧ bq ≤ 95 ∧
          fitsAt ops img format target_size bq ∧
          d = saveWith ops img format bq ∧
          ∀ q, bq < q → q ≤ 95 → ¬ fitsAt ops img format target_size q) := by
  intro low high best_data best_quality
  induction low, high, best_data, best_quality
    using bsqLoop.induct ops img format target_size with
  | case1 low high best bq h1 mid data hfit ih =>
    intro hminlow hlh h95 hI1 hnone hsome bd bq' heq
    have hb := mid_bounds h1
    rw [bsqLoop] at heq
    simp only [dif_pos h1, if_pos hfit] at heq
    refine ih ?_ ?_ h95 hI1 ?_ ?_ bd bq' heq
    · linarith [hb.1]
    · linarith [hb.2]
    · intro h; exact Option.noConfusion h
    · intro d hd
      have hdd : d = data := (Option.some.injEq _ _ ▸ hd).symm
      subst hdd
      exact ⟨by omega, by linarith [hb.1], hfit, rfl⟩
  | case2 low high best bq h1 mid data hnfit ih =>
    intro hminlow hlh h95 hI1 hnone hsome bd bq' heq
    have hb := mid_bounds h1
    rw [bsqLoop] at heq
    simp only [dif_pos h1, if_neg hnfit] at heq
    refine ih hminlow ?_ ?_ ?_ hnone hsome bd bq' heq
    · linarith [hb.1]
    · linarith [hb.2]
    · intro q hq1 hq2 hfq
      by_cases hqh : high < q
      · exact hI1 q hqh hq2 hfq
      · exact hnfit (hdc mid q (by linarith) hfq)
  | case3 low high best bq h1 =>
    intro hminlow hlh h95 hI1 hnone hsome bd bq' heq
    rw [bsqLoop] at heq
    simp only [dif_neg h1] at heq
    obtain ⟨rfl, rfl⟩ := Prod.mk.injEq .. ▸ heq
    constructor
    · intro hbd q hq1 hq2
      have hlow := hnone hbd
      exact hI1 q (by omega) hq2
    · intro d hd
      obtain ⟨hbq, hminbq, hfit, hdata⟩ := hsome d hd
      refine ⟨hminbq, by omega, hfit, hdata, ?_⟩
      intro q hq1 hq2
      exact hI1 q (by omega) hq2

/-- Correctness of `binary_search_quality` under monotone (downward-closed)
fits: if some quality in `[30, 95]` fits the budget it returns the encoding
at the greatest fitting quality together with that quality; if none fits it
returns a single encode at the minimum quality 30 (with the untouched
initial quality value 95). -/
theorem binary_search_quality_spec (ops : PILOps) (img : Img) (format : Format)
    (target_size : Nat)
    (hdc : ∀ q q' : Int, q ≤ q' → fitsAt ops img format target_size q' →
      fitsAt ops img format target_size q) :
    ((∃ q : Int, 30 ≤ q ∧ q ≤ 95 ∧ fitsAt ops img format target_size q) →
      ∃ q : Int, 30 ≤ q ∧ q ≤ 95 ∧ fitsAt ops img format target_size q ∧
        (∀ q' : Int, q < q' → q' ≤ 95 → ¬ fitsAt ops img format target_size q') ∧
        binary_search_quality ops img format target_size 30 =
          (saveWith ops img format q, q)) ∧
    ((∀ q : Int, 30 ≤ q → q ≤ 95 → ¬ fitsAt ops img format target_size q) →
      binary_search_quality ops img format target_size 30 =
        (saveWith ops img format 30, 95)) := by
  rcases hres : bsqLoop ops img format target_size 30 95 none 95 with ⟨bd, bq⟩
  have hinv := bsqLoop_invariant ops img format target_size 30 hdc 30 95 none 95
    (le_refl 30) (by norm_num) (le_refl 95)
    (fun q h1 h2 => absurd h2 (not_le.mpr h1))
    (fun _ => rfl) (fun d hd => Option.noConfusion hd) bd bq hres
  constructor
  · rintro ⟨q0, h1, h2, h3⟩
    cases bd with
    | none => exact absurd h3 (hinv.1 rfl q0 h1 h2)
    | some d =>
      obtain ⟨hmin, h95, hfit, hdata, hmax⟩ := hinv.2 d rfl
      refine ⟨bq, hmin, h95, hfit, hmax, ?_⟩
      simp [binary_search_quality, hres, hdata]
  · intro hall
    have hconst := bsqLoop_const_of_unfit ops img format target_size 30 95 none 95
      (fun q hq1 hq2 => hall q hq1 hq2)
    simp [binary_search_quality, hconst]

/-- C1: for every opaque image whose raw encoding exceeds the budget, and
whose JPEG size is monotone in the quality parameter (the regime in which a
binary search is meaningful — "within binary-search resolution"),
`compress_image_data` returns JPEG bytes within the budget whenever some
quality in `[30, 95]` fits at the (possibly resized) dimensions, and the
bytes are the encoding at the greatest such quality (which is also the
quality value `binary_search_quality` reports); if no quality in `[30, 95]`
fits, it returns the single encode at the minimum quality 30, accepting an
over-budget result rather than failing. -/
theorem compress_opaque_binary_search_spec (ops : PILOps) (decoded : Img)
    (image_data : List Nat) (max_size : Nat)
    (hbig : image_data.length > max_size)
    (hopq : isTransparent (workingImage ops decoded) = false)
    (hmono : ∀ q q' : Int, q ≤ q' →
      (ops.encodeJPEG (workingImage ops decoded) q).length ≤
        (ops.encodeJPEG (workingImage ops decoded) q').length) :
    ((∃ q : Int, 30 ≤ q ∧ q ≤ 95 ∧
        (ops.encodeJPEG (workingImage ops decoded) q).length ≤ max_size) →
      (compress_image_data ops decoded image_data max_size).1.length ≤ max_size ∧
      (compress_image_data ops decoded image_data max_size).2 = "image/jpeg" ∧
      ∃ q : Int, 30 ≤ q ∧ q ≤ 95 ∧
        (ops.encodeJPEG (workingImage ops decoded) q).length ≤ max_size ∧
        (∀ q' : Int, q < q' → q' ≤ 95 →
          ¬ (ops.encodeJPEG (workingImage ops decoded) q').length ≤ max_size) ∧
        binary_search_quality ops (workingImage ops decoded) Format.JPEG
          max_size 30 = (ops.encodeJPEG (workingImage ops decoded) q, q) ∧
        (compress_image_data ops decoded image_data max_size).1 =
          ops.encodeJPEG (workingImage ops decoded) q) ∧
    ((∀ q : Int, 30 ≤ q → q ≤ 95 →
        ¬ (ops.encodeJPEG (workingImage ops decoded) q).length ≤ max_size) →
      (compress_image_data ops decoded image_data max_size).1 =
        ops.encodeJPEG (workingImage ops decoded) 30 ∧
      (compress_image_data ops decoded image_data max_size).2 = "image/jpeg") := by
  have hnb : ¬ image_data.length ≤ max_size := by omega
  have hcomp : compress_image_data ops decoded image_data max_size =
      ((binary_search_quality ops (workingImage ops decoded) Format.JPEG
          max_size 30).1, "image/jpeg") := by
    simp [compress_image_data, hnb, hopq]
  have hdc : ∀ q q' : Int, q ≤ q' →
      fitsAt ops (workingImage ops decoded) Format.JPEG max_size q' →
      fitsAt ops (workingImage ops decoded) Format.JPEG max_size q :=
    fun q q' hle hf => le_trans (hmono q q' hle) hf
  have hspec := binary_search_quality_spec ops (workingImage ops decoded)
    Format.JPEG max_size hdc
  constructor
  · rintro ⟨q0, h1, h2, h3⟩
    obtain ⟨q, hq1, hq2, hq3, hq4, hq5⟩ := hspec.1 ⟨q0, h1, h2, h3⟩
    rw [hcomp, hq5]
    exact ⟨hq3, rfl, q, hq1, hq2, hq3, hq4, rfl, rfl⟩
  · intro hall
    have h2 := hspec.2 (fun q a b => hall q a b)
    rw [hcomp, h2]
    exact ⟨rfl, rfl⟩

/-- Witness for C1: a linear-size JPEG encoder (`q` bytes at quality `q`),
a 61-byte original against a 60-byte budget; quality 60 fits, so the result
is within budget and JPEG. -/
theorem compress_opaque_binary_search_spec_witness :
    (compress_image_data Fixtures.opsLinear Fixtures.imgRGB
        (List.replicate 61 0) 60).1.length ≤ 60 ∧
    (compress_image_data Fixtures.opsLinear Fixtures.imgRGB
        (List.replicate 61 0) 60).2 = "image/jpeg" := by
  have h := compress_opaque_binary_search_spec Fixtures.opsLinear Fixtures.imgRGB
    (List.replicate 61 0) 60 (by simp) (by decide)
    (fun q q' hle => by
      simp only [Fixtures.opsLinear, List.length_replicate]
      exact Int.toNat_le_toNat hle)
  have h1 := h.1 ⟨60, by norm_num, by norm_num,
    by norm_num [Fixtures.opsLinear]⟩
  exact ⟨h1.1, h1.2.1⟩

end ClaimOne
